import Mathlib

/-!
Verification of the PulseAI backend against its specification.

The Python source is shallowly embedded: Python floats become exact
rationals (ℚ), `None`-able values become `Option ℚ`, SQLAlchemy rows
become Lean structures, and the database tables touched by the
escalation service become explicit lists of records threaded through
the functions.  Functions are translated clause by clause from
`app/services/anomaly_detector.py`, `app/routes/care_score.py` and
`app/services/escalation_service.py`.
-/

namespace PulseAI

/-! ### Python helpers

`pyRound` models Python `round(x, ndigits)` (banker's rounding:
round half to even). `truthy` models Python truthiness of an optional
float (`None` and `0.0` are falsy). `orDefault` models `x or d`. -/

/-- Round a rational to the nearest integer, ties to even (Python `round`). -/
def roundHalfEven (q : ℚ) : ℤ :=
  if q - ⌊q⌋ < 1/2 then ⌊q⌋
  else if q - ⌊q⌋ = 1/2 then (if ⌊q⌋ % 2 = 0 then ⌊q⌋ else ⌊q⌋ + 1)
  else ⌊q⌋ + 1

/-- Python `round(q, ndigits)` for nonnegative `ndigits`. -/
def pyRound (q : ℚ) (ndigits : ℕ) : ℚ :=
  (roundHalfEven (q * 10 ^ ndigits) : ℚ) / 10 ^ ndigits

/-- Truthiness of an optional float: `None` and `0.0` are falsy. -/
def truthy : Option ℚ → Bool
  | none => false
  | some v => if v = 0 then false else true

/-- Python `x or d` for an optional float `x` and default `d`. -/
def orDefault (o : Option ℚ) (d : ℚ) : ℚ :=
  match o with
  | none => d
  | some v => if v = 0 then d else v

/-- First value bound to a key in an association list (models a Python
dict lookup / `signal in baselines`). -/
def alistFind {α : Type} : List (String × α) → String → Option α
  | [], _ => none
  | (k, v) :: rest, s => if k = s then some v else alistFind rest s

/-! ### Data model (`app/models/health_data.py`)

One `HealthData` row: the nine signal columns, all nullable floats.
The id/user_id/timestamp/source columns are plumbing handled by the
database query and are not part of the computations verified here; the
readings lists below always stand for the rows already selected for
one user inside the relevant time window, in chronological order. -/

structure HealthData where
  heart_rate : Option ℚ
  hrv : Option ℚ
  sleep_duration : Option ℚ
  sleep_quality : Option ℚ
  activity_level : Option ℚ
  breathing_rate : Option ℚ
  bp_systolic : Option ℚ
  bp_diastolic : Option ℚ
  blood_sugar : Option ℚ
deriving DecidableEq

/-- `getattr(d, signal)` for the nine signal columns. -/
def getSignal (d : HealthData) (s : String) : Option ℚ :=
  if s = "heart_rate" then d.heart_rate
  else if s = "hrv" then d.hrv
  else if s = "sleep_duration" then d.sleep_duration
  else if s = "sleep_quality" then d.sleep_quality
  else if s = "activity_level" then d.activity_level
  else if s = "breathing_rate" then d.breathing_rate
  else if s = "bp_systolic" then d.bp_systolic
  else if s = "bp_diastolic" then d.bp_diastolic
  else if s = "blood_sugar" then d.blood_sugar
  else none

/-- A `HealthData` row with every signal absent. -/
def emptyRow : HealthData :=
  ⟨none, none, none, none, none, none, none, none, none⟩

/-! ### AnomalyDetector (`app/services/anomaly_detector.py`) -/

/-- `AnomalyDetector.SIGNALS`: the automatically collected signals. -/
def SIGNALS : List String :=
  ["heart_rate", "hrv", "sleep_duration", "sleep_quality",
   "activity_level", "breathing_rate"]

/-- `AnomalyDetector.MANUAL_SIGNALS`: the manually entered signals. -/
def MANUAL_SIGNALS : List String := ["bp_systolic", "bp_diastolic", "blood_sugar"]

/-- `_calculate_modified_z_score(value, median, iqr)`: if `iqr == 0`
substitute `median * 0.1` when the median is truthy, else `1`; then
`mad = iqr / 1.349` and `modified_z = 0.6745 * (value - median) / mad`
guarded by `if mad else 0`. -/
def modifiedZ (value median iqr : ℚ) : ℚ :=
  let iqr1 : ℚ := if iqr = 0 then (if median = 0 then 1 else median * (1/10)) else iqr
  let mad : ℚ := iqr1 / (1349/1000)
  if mad = 0 then 0 else (6745/10000) * (value - median) / mad

/-- Division that fails on a zero divisor, mirroring Python's
`ZeroDivisionError`: used to state that `_calculate_modified_z_score`
never divides by zero. -/
def divChecked (a b : ℚ) : Option ℚ := if b = 0 then none else some (a / b)

/-- `_calculate_modified_z_score` with every division checked. -/
def modifiedZChecked (value median iqr : ℚ) : Option ℚ :=
  let iqr1 : ℚ := if iqr = 0 then (if median = 0 then 1 else median * (1/10)) else iqr
  match divChecked iqr1 (1349/1000) with
  | none => none
  | some mad =>
      if mad = 0 then some 0
      else divChecked ((6745/10000) * (value - median)) mad

/-- `_get_severity(z_score)`. -/
def getSeverity (zScore : ℚ) : String :=
  if 4 ≤ |zScore| then "severe"
  else if 3 ≤ |zScore| then "moderate"
  else if 2 ≤ |zScore| then "mild"
  else "normal"

/-- Numeric rank of a severity label, for stating monotonicity. -/
def sevRank : String → ℕ
  | "mild" => 1
  | "moderate" => 2
  | "severe" => 3
  | _ => 0

/-- The per-signal baseline dict built by `learn_baseline`.  The source
stores `std = float(np.std(values))`; a population standard deviation is
irrational in general, so the field kept here is its exact square
`std_sq` (the population variance).  No code downstream of
`learn_baseline` reads `std`. -/
structure BaselineStats where
  median : ℚ
  mean : ℚ
  std_sq : ℚ
  q1 : ℚ
  q3 : ℚ
  iqr : ℚ
deriving DecidableEq

/-- One entry of the `anomalies` list built by `detect_anomalies`. -/
structure AnomalyEntry where
  signal : String
  current_value : ℚ
  baseline_median : ℚ
  z_score : ℚ
  severity : String
  direction : String
deriving DecidableEq

/-- The dict returned by `detect_anomalies` (the `analyzed_at`
timestamp and the free-text `message` of the sentinel branch are
omitted; `num_signals_affected` equals `anomalies.length`). -/
structure AnomalyReport where
  has_anomaly : Bool
  anomalies : List AnomalyEntry
  overall_risk : String
deriving DecidableEq

/-- `detect_anomalies(user_id, current_data, baselines)` for the case
where a baselines dict is supplied (when it is `None` the source first
computes `learn_baseline`, modelled separately). -/
def detectAnomalies (currentData : List (String × Option ℚ))
    (baselines : List (String × BaselineStats)) : AnomalyReport :=
  if baselines.isEmpty then
    { has_anomaly := false, anomalies := [], overall_risk := "unknown" }
  else
    let anomalies := currentData.filterMap (fun p =>
      match p.2, alistFind baselines p.1 with
      | some v, some b =>
          let z := modifiedZ v b.median b.iqr
          if 2 ≤ |z| then
            some { signal := p.1
                   current_value := v
                   baseline_median := b.median
                   z_score := pyRound z 2
                   severity := getSeverity z
                   direction := if b.median < v then "high" else "low" }
          else none
      | _, _ => none)
    let overall_risk :=
      if anomalies.isEmpty then "normal"
      else if anomalies.any (fun a => a.severity = "severe") then "high"
      else if anomalies.any (fun a => a.severity = "moderate") then "moderate"
      else "mild"
    { has_anomaly := !anomalies.isEmpty
      anomalies := anomalies
      overall_risk := overall_risk }

/-! #### `learn_baseline` -/

/-- `np.mean(values)`. -/
def listMean (l : List ℚ) : ℚ := l.sum / l.length

/-- The square of `np.std(values)` (population variance). -/
def listVarPop (l : List ℚ) : ℚ :=
  (l.map (fun x => (x - listMean l) ^ 2)).sum / l.length

/-- `np.percentile(values, q)` with numpy's default linear
interpolation between order statistics; `np.median` is the `q = 50`
case. -/
def percentile (l : List ℚ) (q : ℚ) : ℚ :=
  let s := l.insertionSort (· ≤ ·)
  if s.isEmpty then 0
  else
    let n := s.length
    let p : ℚ := q / 100 * ((n : ℚ) - 1)
    let i : ℤ := ⌊p⌋
    let lo := s.getD i.toNat 0
    let hi := s.getD (min (i.toNat + 1) (n - 1)) 0
    lo + (p - i) * (hi - lo)

/-- The stats dict `learn_baseline` builds for one signal's values. -/
def baselineFor (values : List ℚ) : BaselineStats :=
  { median := percentile values 50
    mean := listMean values
    std_sq := listVarPop values
    q1 := percentile values 25
    q3 := percentile values 75
    iqr := percentile values 75 - percentile values 25 }

/-- The non-null values of one signal across the selected rows:
`[getattr(d, signal) for d in data if getattr(d, signal) is not None]`. -/
def signalValues (data : List HealthData) (s : String) : List ℚ :=
  data.filterMap (fun d => getSignal d s)

/-- `learn_baseline(user_id, days)`: `data` is the list of rows in the
trailing window.  `if not data: return {}`; otherwise one stats dict
per signal with at least 5 non-null values.  The `_update_user_baselines`
side effect (persisting medians onto the user row) is database plumbing
and is not modelled. -/
def learnBaseline (data : List HealthData) : List (String × BaselineStats) :=
  if data.isEmpty then []
  else
    (SIGNALS ++ MANUAL_SIGNALS).filterMap (fun s =>
      let values := signalValues data s
      if 5 ≤ values.length then some (s, baselineFor values) else none)

/-! #### `analyze_drift` -/

/-- `values[-3:]`. -/
def lastN (l : List ℚ) (n : ℕ) : List ℚ := l.drop (l.length - n)

/-- The slope `np.polyfit(range(len(values)), values, 1)[0]` of the
first-degree least-squares fit of value against index. -/
def slopeFit (values : List ℚ) : ℚ :=
  let n : ℚ := values.length
  let xs : List ℚ := (List.range values.length).map (fun i => (i : ℚ))
  let sx := xs.sum
  let sy := values.sum
  let sxy := ((xs.zip values).map (fun p => p.1 * p.2)).sum
  let sxx := (xs.map (fun x => x * x)).sum
  (n * sxy - sx * sy) / (n * sxx - sx * sx)

/-- One entry of the `drift_signals` list. -/
structure DriftEntry where
  signal : String
  recent_average : ℚ
  baseline : ℚ
  deviation : ℚ
  trend : String
  sustained : Bool
deriving DecidableEq

/-- The dict returned by `analyze_drift` (`window_days` and the
insufficient-data `message` are omitted). -/
structure DriftReport where
  has_drift : Bool
  drift_signals : List DriftEntry
  data_points_analyzed : ℕ
deriving DecidableEq

/-- `analyze_drift(user_id, window_days)`: `recent` is the
chronologically ordered window of rows, `monthData` the 30-day window
the inner `learn_baseline(user_id, days=30)` call sees. -/
def analyzeDrift (recent : List HealthData) (monthData : List HealthData) :
    DriftReport :=
  if recent.length < 3 then
    { has_drift := false, drift_signals := [], data_points_analyzed := recent.length }
  else
    let baselines := learnBaseline monthData
    let ds := SIGNALS.filterMap (fun sig =>
      match alistFind baselines sig with
      | none => none
      | some b =>
          let values := signalValues recent sig
          if values.length < 3 then none
          else
            let recentAvg := listMean (lastN values 3)
            let z := modifiedZ recentAvg b.median b.iqr
            let trendDir :=
              if 5 ≤ values.length then
                (if 0 < slopeFit values then "increasing" else "decreasing")
              else "unknown"
            if 3/2 ≤ |z| then
              some { signal := sig
                     recent_average := pyRound recentAvg 2
                     baseline := pyRound b.median 2
                     deviation := pyRound z 2
                     trend := trendDir
                     sustained := decide (5 ≤ values.length) }
            else none)
    { has_drift := !ds.isEmpty
      drift_signals := ds
      data_points_analyzed := recent.length }

/-! ### CareScore route (`app/routes/care_score.py`)

`calculate_simple_care_score(health_data, user)` reads two of the
user's persisted baseline columns; each scoring block below is one
`if` block of the source, returning its score contribution and the
deviation messages it appends.  The f-string deviation messages embed
numeric values; they are abstracted to fixed tags here, since the code
under verification uses only how many there are
(`cross_signal_score = len(deviations) * 3`). -/

structure UserBaselines where
  baseline_heart_rate : Option ℚ
  baseline_hrv : Option ℚ
deriving DecidableEq

/-- Heart-rate block: `if hr:` then outside 55–100 adds
`min(15, deviation / 2)` with `deviation = abs(hr - baseline) / baseline * 100`
and `baseline = user.baseline_heart_rate or 72`. -/
def heartRatePart (hd : HealthData) (u : UserBaselines) : ℚ × List String :=
  if truthy hd.heart_rate then
    let hr := hd.heart_rate.getD 0
    let baseline := orDefault u.baseline_heart_rate 72
    if 100 < hr ∨ hr < 55 then
      let deviation := |hr - baseline| / baseline * 100
      (min 15 (deviation / 2), ["heart rate"])
    else (0, [])
  else (0, [])

/-- HRV block: `if hrv:` then `hrv < 30` adds 10.  (The source also
computes `user.baseline_hrv or 50` but never uses it.) -/
def hrvPart (hd : HealthData) : ℚ × List String :=
  if truthy hd.hrv then
    let hrv := hd.hrv.getD 0
    if hrv < 30 then (10, ["low hrv"]) else (0, [])
  else (0, [])

/-- Sleep block: `< 6` adds 8 with a message, `< 7` adds 4 silently. -/
def sleepPart (hd : HealthData) : ℚ × List String :=
  if truthy hd.sleep_duration then
    let sleep := hd.sleep_duration.getD 0
    if sleep < 6 then (8, ["insufficient sleep"])
    else if sleep < 7 then (4, [])
    else (0, [])
  else (0, [])

/-- Blood-pressure block: `if bp_sys and bp_dia:` then the three
threshold branches; only the first two append a message. -/
def bpPart (hd : HealthData) : ℚ × List String :=
  if truthy hd.bp_systolic && truthy hd.bp_diastolic then
    let bpSys := hd.bp_systolic.getD 0
    let bpDia := hd.bp_diastolic.getD 0
    if 180 ≤ bpSys ∨ 120 ≤ bpDia then (20, ["high blood pressure"])
    else if 140 ≤ bpSys ∨ 90 ≤ bpDia then (12, ["elevated blood pressure"])
    else if 130 ≤ bpSys then (5, [])
    else (0, [])
  else (0, [])

/-- Blood-sugar block. -/
def sugarPart (hd : HealthData) : ℚ × List String :=
  if truthy hd.blood_sugar then
    let sugar := hd.blood_sugar.getD 0
    if 200 ≤ sugar then (15, ["high blood sugar"])
    else if 140 ≤ sugar then (8, ["elevated blood sugar"])
    else if sugar ≤ 70 then (10, ["low blood sugar"])
    else (0, [])
  else (0, [])

/-- Activity block: the only one gated on `is not None` instead of
truthiness. -/
def activityPart (hd : HealthData) : ℚ × List String :=
  match hd.activity_level with
  | some a => if a < 3000 then (5, ["low physical activity"]) else (0, [])
  | none => (0, [])

/-- The accumulated `score` before normalization. -/
def rawScore (hd : HealthData) (u : UserBaselines) : ℚ :=
  (heartRatePart hd u).1 + (hrvPart hd).1 + (sleepPart hd).1 +
    (bpPart hd).1 + (sugarPart hd).1 + (activityPart hd).1

/-- The accumulated `deviations` list. -/
def deviationsOf (hd : HealthData) (u : UserBaselines) : List String :=
  (heartRatePart hd u).2 ++ (hrvPart hd).2 ++ (sleepPart hd).2 ++
    (bpPart hd).2 ++ (sugarPart hd).2 ++ (activityPart hd).2

/-- `score = min(100, max(0, score))`. -/
def clampedScore (hd : HealthData) (u : UserBaselines) : ℚ :=
  min 100 (max 0 (rawScore hd u))

/-- The status banding of `calculate_simple_care_score`. -/
def statusOf (score : ℚ) : String :=
  if score ≤ 30 then "Stable"
  else if score ≤ 50 then "Mild"
  else if score ≤ 70 then "Moderate"
  else "High"

/-- The dict returned by `calculate_simple_care_score`. -/
structure SimpleScoreResult where
  score : ℚ
  status : String
  deviations : List String
deriving DecidableEq

/-- `calculate_simple_care_score(health_data, user)`: clamped score
rounded to one decimal, status from the clamped score, deviations. -/
def calculateSimpleCareScore (hd : HealthData) (u : UserBaselines) :
    SimpleScoreResult :=
  { score := pyRound (clampedScore hd u) 1
    status := statusOf (clampedScore hd u)
    deviations := deviationsOf hd u }

/-- The `CareScore` row persisted by the `/care-score/calculate`
route (`calculate_care_score`), numeric and status columns.
`confidence_score` depends on whether the external Gemini call
succeeded, passed in as `geminiOk`. -/
structure CareScoreRecord where
  care_score : ℚ
  severity_score : ℚ
  persistence_score : ℚ
  cross_signal_score : ℚ
  manual_modifier : ℚ
  drift_score : ℚ
  confidence_score : ℚ
  stability_score : ℚ
  status : String
deriving DecidableEq

/-- The `CareScore(...)` constructor call in `calculate_care_score`. -/
def mkCareScoreRecord (hd : HealthData) (u : UserBaselines) (geminiOk : Bool) :
    CareScoreRecord :=
  let r := calculateSimpleCareScore hd u
  { care_score := r.score
    severity_score := min 40 (r.score * (4/10))
    persistence_score := 0
    cross_signal_score := (r.deviations.length : ℚ) * 3
    manual_modifier := 0
    drift_score := r.score * (5/10)
    confidence_score := if geminiOk then 85 else 70
    stability_score := 100 - r.score
    status := r.status.toLower }

/-! ### EscalationService (`app/services/escalation_service.py`)

The `escalations` table is modelled as a list of records in insertion
order; timestamps are rationals measured in hours, so the 24-hour
cutoff `datetime.utcnow() - timedelta(hours=24)` is `now - 24`.
The templated `title`/`message`/`health_summary` strings do not affect
any verified property and are left out of the record. -/

structure EscalationRec where
  id : ℕ
  user_id : ℕ
  level : ℕ
  timestamp : ℚ
  acknowledged : Bool
  action_taken : Option String
deriving DecidableEq

/-- `_determine_level(score)` against the `ESCALATION_LEVELS`
thresholds 71 / 51 / 31. -/
def determineLevel (score : ℚ) : ℕ :=
  if 71 ≤ score then 3
  else if 51 ≤ score then 2
  else if 31 ≤ score then 1
  else 0

/-- `_has_recent_escalation(user_id, level, hours)`: any escalation of
that user at that exact level with `timestamp >= now - hours`. -/
def hasRecentEscalation (st : List EscalationRec) (u level : ℕ)
    (now hours : ℚ) : Bool :=
  st.any (fun e =>
    decide (e.user_id = u) && decide (e.level = level) &&
      decide (now - hours ≤ e.timestamp))

/-- `check_escalation(user_id, care_score)`: returns the created
escalation (if any) and the table after the call.  `now` is the wall
clock of the call, `newId` the row id the database would assign. -/
def checkEscalation (st : List EscalationRec) (u : ℕ) (careScore : ℚ)
    (now : ℚ) (newId : ℕ) : Option EscalationRec × List EscalationRec :=
  let level := determineLevel careScore
  if level = 0 then (none, st)
  else if hasRecentEscalation st u level now 24 then (none, st)
  else
    let e : EscalationRec :=
      { id := newId, user_id := u, level := level, timestamp := now,
        acknowledged := false, action_taken := none }
    (some e, st ++ [e])

/-- A sequence of `check_escalation` calls, each argument tuple being
(user, care score, time, fresh id). -/
def runCalls (st : List EscalationRec) :
    List (ℕ × ℚ × ℚ × ℕ) → List EscalationRec
  | [] => st
  | c :: rest => runCalls (checkEscalation st c.1 c.2.1 c.2.2.1 c.2.2.2).2 rest

/-- `acknowledge_escalation(escalation_id, action)`: `.first()` row
with that id gets `acknowledged = 1` and `action_taken = action`;
returns whether a row was found, and the table after the call.
The route-level default for `action` is `'dismissed'`. -/
def acknowledgeEscalation : List EscalationRec → ℕ → String →
    Bool × List EscalationRec
  | [], _, _ => (false, [])
  | r :: rest, eid, a =>
      if r.id = eid then
        (true, { r with acknowledged := true, action_taken := some a } :: rest)
      else
        let res := acknowledgeEscalation rest eid a
        (res.1, r :: res.2)

/-- The first escalation row with a given id (`query(...).first()`). -/
def findEsc (st : List EscalationRec) (eid : ℕ) : Option EscalationRec :=
  st.find? (fun r => decide (r.id = eid))

/-! ### Helper lemmas -/

lemma sevRank_severe : sevRank "severe" = 3 := rfl

lemma sevRank_moderate : sevRank "moderate" = 2 := rfl

lemma sevRank_mild : sevRank "mild" = 1 := rfl

lemma sevRank_normal : sevRank "normal" = 0 := rfl

lemma getSeverity_eq_severe_iff (z : ℚ) : getSeverity z = "severe" ↔ 4 ≤ |z| := by
  unfold getSeverity
  split_ifs with h1 h2 h3
  · exact iff_of_true rfl h1
  · exact iff_of_false (by decide) h1
  · exact iff_of_false (by decide) h1
  · exact iff_of_false (by decide) h1

lemma getSeverity_eq_moderate_iff (z : ℚ) :
    getSeverity z = "moderate" ↔ 3 ≤ |z| ∧ |z| < 4 := by
  unfold getSeverity
  split_ifs with h1 h2 h3
  · exact iff_of_false (by decide) fun h => absurd h1 (not_le.mpr h.2)
  · exact iff_of_true rfl ⟨h2, not_le.mp h1⟩
  · exact iff_of_false (by decide) fun h => absurd h.1 h2
  · exact iff_of_false (by decide) fun h => absurd (le_trans (by norm_num) h.1) h3

lemma getSeverity_eq_mild_iff (z : ℚ) :
    getSeverity z = "mild" ↔ 2 ≤ |z| ∧ |z| < 3 := by
  unfold getSeverity
  split_ifs with h1 h2 h3
  · exact iff_of_false (by decide)
      fun h => absurd h1 (not_le.mpr (lt_of_lt_of_le h.2 (by norm_num)))
  · exact iff_of_false (by decide) fun h => absurd h2 (not_le.mpr h.2)
  · exact iff_of_true rfl ⟨h3, not_le.mp h2⟩
  · exact iff_of_false (by decide) fun h => absurd h.1 h3

lemma getSeverity_eq_normal_iff (z : ℚ) : getSeverity z = "normal" ↔ |z| < 2 := by
  unfold getSeverity
  split_ifs with h1 h2 h3
  · exact iff_of_false (by decide) (not_lt.mpr (by linarith))
  · exact iff_of_false (by decide) (not_lt.mpr (by linarith))
  · exact iff_of_false (by decide) (not_lt.mpr h3)
  · exact iff_of_true rfl (not_le.mp h3)

lemma sevRank_getSeverity_mono {z1 z2 : ℚ} (h : |z1| ≤ |z2|) :
    sevRank (getSeverity z1) ≤ sevRank (getSeverity z2) := by
  unfold getSeverity
  split_ifs
  all_goals first
    | decide
    | (exfalso; linarith)

/-- Any anomaly entry of `detect_anomalies` arises from a pair of the
current-data dict whose modified z-score against the looked-up
baseline has absolute value at least 2, and carries that z-score's
severity and direction. -/
lemma of_mem_anomalies {currentData : List (String × Option ℚ)}
    {baselines : List (String × BaselineStats)} {a : AnomalyEntry}
    (h : a ∈ (detectAnomalies currentData baselines).anomalies) :
    ∃ v b, (a.signal, some v) ∈ currentData ∧
      alistFind baselines a.signal = some b ∧
      2 ≤ |modifiedZ v b.median b.iqr| ∧
      a.current_value = v ∧
      a.severity = getSeverity (modifiedZ v b.median b.iqr) ∧
      a.direction = (if b.median < v then "high" else "low") := by
  unfold detectAnomalies at h
  split_ifs at h with hemp
  · simp at h
  · simp only [List.mem_filterMap] at h
    obtain ⟨⟨sig, v?⟩, hmem, hf⟩ := h
    cases v? with
    | none => simp at hf
    | some v =>
      cases hfind : alistFind baselines sig with
      | none => simp [hfind] at hf
      | some b =>
        simp only [hfind] at hf
        by_cases hz : 2 ≤ |modifiedZ v b.median b.iqr|
        · rw [if_pos hz] at hf
          obtain rfl := Option.some.inj hf
          exact ⟨v, b, hmem, hfind, hz, rfl, rfl, rfl⟩
        · rw [if_neg hz] at hf
          exact absurd hf (by simp)

/-! ### Claims -/

/-- A concrete heart-rate baseline with median 72 and iqr 10 (the
end-to-end scenario of the spec). -/
def hrBaseline : BaselineStats :=
  { median := 72, mean := 72, std_sq := 0, q1 := 67, q3 := 77, iqr := 10 }

/-- C2: for iqr > 0 the modified z-score is
`0.6745 * (value - median) / (iqr / 1.349)`, hence 0 at the median;
for median 72, iqr 10, value 100 it is 2.5477214 (≈ 2.55), which
`detect_anomalies` classifies as severity "mild" with direction
"high". -/
theorem modifiedZ_spec :
    (∀ value median iqr : ℚ, 0 < iqr →
        modifiedZ value median iqr =
          (6745/10000) * (value - median) / (iqr / (1349/1000)))
    ∧ (∀ median iqr : ℚ, 0 < iqr → modifiedZ median median iqr = 0)
    ∧ modifiedZ 100 72 10 = 25477214/10000000
    ∧ (254/100 : ℚ) < modifiedZ 100 72 10 ∧ modifiedZ 100 72 10 < 256/100
    ∧ (detectAnomalies [("heart_rate", some 100)]
        [("heart_rate", hrBaseline)]).anomalies.map
          (fun a => (a.severity, a.direction)) = [("mild", "high")] := by
  have hval : modifiedZ 100 72 10 = 25477214/10000000 := by
    norm_num [modifiedZ]
  refine ⟨?_, ?_, hval, by rw [hval]; norm_num, by rw [hval]; norm_num, ?_⟩
  · intro v m i hi
    have h1 : i ≠ 0 := ne_of_gt hi
    have h2 : i / (1349/1000 : ℚ) ≠ 0 := div_ne_zero h1 (by norm_num)
    simp [modifiedZ, h1, h2]
  · intro m i hi
    have h1 : i ≠ 0 := ne_of_gt hi
    simp [modifiedZ, h1]
  · have hz : (2 : ℚ) ≤ |modifiedZ 100 72 10| ∧ |modifiedZ 100 72 10| < 3 := by
      rw [hval, abs_of_pos (by norm_num)]
      norm_num
    have hsev : getSeverity (modifiedZ 100 72 10) = "mild" :=
      (getSeverity_eq_mild_iff _).2 hz
    simp [detectAnomalies, alistFind, hrBaseline, hz.1, hsev,
      show (72 : ℚ) < 100 by norm_num]

/-- C2 witness: the universally quantified conjuncts applied at the
concrete scenario median 72, iqr 10, value 100. -/
theorem modifiedZ_spec_witness :
    (0 : ℚ) < 10
    ∧ modifiedZ 100 72 10 = (6745/10000) * (100 - 72) / (10 / (1349/1000))
    ∧ modifiedZ 72 72 10 = 0 :=
  ⟨by norm_num, modifiedZ_spec.1 100 72 10 (by norm_num),
    modifiedZ_spec.2.1 72 10 (by norm_num)⟩

/-- C3: severity is monotonically non-decreasing in `abs(z)` with
exact band boundaries [2,3) mild, [3,4) moderate, ≥4 severe; below 2
the severity is "normal" and `detect_anomalies` produces no entry for
that signal value. -/
theorem severity_bands_monotone :
    (∀ z1 z2 : ℚ, |z1| ≤ |z2| →
        sevRank (getSeverity z1) ≤ sevRank (getSeverity z2))
    ∧ (∀ z : ℚ,
        (getSeverity z = "mild" ↔ 2 ≤ |z| ∧ |z| < 3)
        ∧ (getSeverity z = "moderate" ↔ 3 ≤ |z| ∧ |z| < 4)
        ∧ (getSeverity z = "severe" ↔ 4 ≤ |z|)
        ∧ (getSeverity z = "normal" ↔ |z| < 2))
    ∧ (∀ (currentData : List (String × Option ℚ))
        (baselines : List (String × BaselineStats))
        (sig : String) (v : ℚ) (b : BaselineStats),
        alistFind baselines sig = some b →
        |modifiedZ v b.median b.iqr| < 2 →
        ∀ a ∈ (detectAnomalies currentData baselines).anomalies,
          ¬(a.signal = sig ∧ a.current_value = v)) := by
  refine ⟨fun z1 z2 h => sevRank_getSeverity_mono h,
    fun z => ⟨getSeverity_eq_mild_iff z, getSeverity_eq_moderate_iff z,
      getSeverity_eq_severe_iff z, getSeverity_eq_normal_iff z⟩,
    ?_⟩
  rintro currentData baselines sig v b hfind hlt a ha ⟨hsig, hval⟩
  obtain ⟨v', b', _, hfind', hz, hcv, _, _⟩ := of_mem_anomalies ha
  rw [hsig] at hfind'
  rw [hfind'] at hfind
  obtain rfl := Option.some.inj hfind
  rw [hcv] at hval
  rw [hval] at hz
  exact absurd hz (not_le.mpr hlt)

/-- C3 witness: the monotonicity, the mild band and the no-entry
property at concrete inputs (current heart rate 73 against the
median-72 baseline has 0.091 deviation, well under 2). -/
theorem severity_bands_monotone_witness :
    |(1 : ℚ)| ≤ |(5/2 : ℚ)|
    ∧ sevRank (getSeverity 1) ≤ sevRank (getSeverity (5/2))
    ∧ (getSeverity (5/2) = "mild" ↔ 2 ≤ |(5/2 : ℚ)| ∧ |(5/2 : ℚ)| < 3)
    ∧ alistFind [("heart_rate", hrBaseline)] "heart_rate" = some hrBaseline
    ∧ |modifiedZ 73 72 10| < 2
    ∧ (∀ a ∈ (detectAnomalies [("heart_rate", some 73)]
          [("heart_rate", hrBaseline)]).anomalies,
        ¬(a.signal = "heart_rate" ∧ a.current_value = 73)) := by
  have h1 : |(1 : ℚ)| ≤ |(5/2 : ℚ)| := by rw [abs_one, abs_of_pos] <;> norm_num
  have hfind : alistFind [("heart_rate", hrBaseline)] "heart_rate" =
      some hrBaseline := by simp [alistFind]
  have hz : |modifiedZ 73 72 10| < 2 := by
    have : modifiedZ 73 72 10 = 9099005/100000000 := by norm_num [modifiedZ, hrBaseline]
    rw [this, abs_of_pos] <;> norm_num
  have hz' : |modifiedZ 73 hrBaseline.median hrBaseline.iqr| < 2 := hz
  exact ⟨h1, severity_bands_monotone.1 1 (5/2) h1,
    (severity_bands_monotone.2.1 (5/2)).1, hfind, hz,
    severity_bands_monotone.2.2 _ _ "heart_rate" 73 hrBaseline hfind hz'⟩

/-- C4: the modified z-score computation never divides by zero (the
checked version always succeeds), substituting `median * 0.1` for a
zero iqr when the median is truthy and `1` otherwise; with
iqr = 0 and median = 0 the flat-signal reading 0 gives deviation 0 and
severity "normal" (no anomaly). -/
theorem modifiedZ_safe :
    (∀ value median iqr : ℚ,
        modifiedZChecked value median iqr = some (modifiedZ value median iqr))
    ∧ (∀ value median : ℚ, median ≠ 0 →
        modifiedZ value median 0 =
          (6745/10000) * (value - median) / ((median * (1/10)) / (1349/1000)))
    ∧ (∀ value : ℚ,
        modifiedZ value 0 0 = (6745/10000) * value / (1 / (1349/1000)))
    ∧ modifiedZ 0 0 0 = 0
    ∧ getSeverity (modifiedZ 0 0 0) = "normal" := by
  have hzero : modifiedZ 0 0 0 = 0 := by norm_num [modifiedZ]
  refine ⟨?_, ?_, ?_, hzero, ?_⟩
  · intro v m i
    unfold modifiedZChecked modifiedZ divChecked
    by_cases hi : i = 0
    · by_cases hm : m = 0
      · norm_num [hi, hm]
      · have hmad : m * (1/10) / (1349/1000 : ℚ) ≠ 0 :=
          div_ne_zero (mul_ne_zero hm (by norm_num)) (by norm_num)
        norm_num [hi, hm, hmad]
    · have hmad : i / (1349/1000 : ℚ) ≠ 0 := div_ne_zero hi (by norm_num)
      norm_num [hi, hmad]
  · intro v m hm
    have hmad : m * (1/10) / (1349/1000 : ℚ) ≠ 0 :=
      div_ne_zero (mul_ne_zero hm (by norm_num)) (by norm_num)
    norm_num [modifiedZ, hm, hmad]
  · intro v
    norm_num [modifiedZ]
  · rw [hzero]
    exact (getSeverity_eq_normal_iff 0).2 (by norm_num)

/-- C4 witness: the checked computation at the degenerate
iqr = 0, median = 0 input, and the zero-iqr substitution with a
nonzero median. -/
theorem modifiedZ_safe_witness :
    modifiedZChecked 0 0 0 = some (modifiedZ 0 0 0)
    ∧ (10 : ℚ) ≠ 0
    ∧ modifiedZ 5 10 0 =
        (6745/10000) * (5 - 10) / ((10 * (1/10)) / (1349/1000)) :=
  ⟨modifiedZ_safe.1 0 0 0, by norm_num,
    modifiedZ_safe.2.1 5 10 (by norm_num)⟩

/-! ### Overall-risk aggregation helpers -/

/-- The risk label the worst severity rank maps to
(severe→high, moderate→moderate, mild→mild). -/
def riskOfRank : ℕ → String
  | 3 => "high"
  | 2 => "moderate"
  | _ => "mild"

/-- The worst severity rank present among a list of anomalies. -/
def maxSevRank (l : List AnomalyEntry) : ℕ :=
  (l.map (fun a => sevRank a.severity)).foldr max 0

lemma sevRank_le_three (s : String) : sevRank s ≤ 3 := by
  unfold sevRank
  split <;> omega

lemma maxSevRank_le {l : List AnomalyEntry} {n : ℕ}
    (h : ∀ a ∈ l, sevRank a.severity ≤ n) : maxSevRank l ≤ n := by
  induction l with
  | nil => simp [maxSevRank]
  | cons a t ih =>
      simp only [maxSevRank, List.map_cons, List.foldr_cons]
      exact max_le (h a (by simp)) (ih fun x hx => h x (by simp [hx]))

lemma le_maxSevRank {l : List AnomalyEntry} {a : AnomalyEntry} (ha : a ∈ l) :
    sevRank a.severity ≤ maxSevRank l := by
  induction l with
  | nil => simp at ha
  | cons b t ih =>
      simp only [maxSevRank, List.map_cons, List.foldr_cons]
      rcases List.mem_cons.mp ha with rfl | h
      · exact le_max_left _ _
      · exact le_trans (ih h) (le_max_right _ _)

lemma maxSevRank_eq_three {l : List AnomalyEntry}
    (h : ∃ a ∈ l, a.severity = "severe") : maxSevRank l = 3 := by
  obtain ⟨a, ha, hs⟩ := h
  refine le_antisymm (maxSevRank_le fun x _ => sevRank_le_three _) ?_
  have := le_maxSevRank ha
  rwa [hs, sevRank_severe] at this

lemma maxSevRank_eq_two {l : List AnomalyEntry}
    (hall : ∀ a ∈ l, a.severity = "mild" ∨ a.severity = "moderate" ∨
      a.severity = "severe")
    (hnosev : ¬∃ a ∈ l, a.severity = "severe")
    (h : ∃ a ∈ l, a.severity = "moderate") : maxSevRank l = 2 := by
  obtain ⟨a, ha, hs⟩ := h
  refine le_antisymm (maxSevRank_le fun x hx => ?_) ?_
  · rcases hall x hx with hm | hm | hm
    · rw [hm, sevRank_mild]; omega
    · rw [hm, sevRank_moderate]
    · exact absurd ⟨x, hx, hm⟩ hnosev
  · have := le_maxSevRank ha
    rwa [hs, sevRank_moderate] at this

lemma maxSevRank_eq_one {l : List AnomalyEntry}
    (hall : ∀ a ∈ l, a.severity = "mild" ∨ a.severity = "moderate" ∨
      a.severity = "severe")
    (hnosev : ¬∃ a ∈ l, a.severity = "severe")
    (hnomod : ¬∃ a ∈ l, a.severity = "moderate")
    (hne : l ≠ []) : maxSevRank l = 1 := by
  have hmild : ∀ x ∈ l, x.severity = "mild" := by
    intro x hx
    rcases hall x hx with hm | hm | hm
    · exact hm
    · exact absurd ⟨x, hx, hm⟩ hnomod
    · exact absurd ⟨x, hx, hm⟩ hnosev
  obtain ⟨a, t, rfl⟩ := List.exists_cons_of_ne_nil hne
  refine le_antisymm (maxSevRank_le fun x hx => ?_) ?_
  · rw [hmild x hx, sevRank_mild]
  · have := le_maxSevRank (List.mem_cons_self a t)
    rwa [hmild a (List.mem_cons_self a t), sevRank_mild] at this

/-- Every anomaly entry produced by `detect_anomalies` has severity
mild, moderate or severe (never normal, since `abs(z) ≥ 2`). -/
lemma severity_of_mem_anomalies {currentData : List (String × Option ℚ)}
    {baselines : List (String × BaselineStats)} {a : AnomalyEntry}
    (ha : a ∈ (detectAnomalies currentData baselines).anomalies) :
    a.severity = "mild" ∨ a.severity = "moderate" ∨ a.severity = "severe" := by
  obtain ⟨v, b', _, _, hz, _, hsev, _⟩ := of_mem_anomalies ha
  rcases le_or_lt 4 |modifiedZ v b'.median b'.iqr| with h4 | h4
  · exact Or.inr (Or.inr (hsev.trans ((getSeverity_eq_severe_iff _).2 h4)))
  · rcases le_or_lt 3 |modifiedZ v b'.median b'.iqr| with h3 | h3
    · exact Or.inr (Or.inl (hsev.trans ((getSeverity_eq_moderate_iff _).2 ⟨h3, h4⟩)))
    · exact Or.inl (hsev.trans ((getSeverity_eq_mild_iff _).2 ⟨hz, h3⟩))

/-- The if-chain of `detect_anomalies` on a nonempty anomaly list of
mild/moderate/severe entries computes the maximum severity rank,
mapped through `riskOfRank`. -/
lemma riskChain_eq_max (l : List AnomalyEntry) (hne : l ≠ [])
    (hall : ∀ a ∈ l, a.severity = "mild" ∨ a.severity = "moderate" ∨
      a.severity = "severe") :
    (if l.any (fun a => a.severity = "severe") then "high"
     else if l.any (fun a => a.severity = "moderate") then "moderate"
     else "mild") = riskOfRank (maxSevRank l) := by
  by_cases hsev : ∃ a ∈ l, a.severity = "severe"
  · have hb : l.any (fun a => a.severity = "severe") = true := by
      simp only [List.any_eq_true, decide_eq_true_eq]
      exact hsev
    rw [hb, maxSevRank_eq_three hsev]
    rfl
  · have hb : l.any (fun a => a.severity = "severe") = false := by
      simp only [List.any_eq_false, decide_eq_true_eq]
      intro a ha hs
      exact hsev ⟨a, ha, hs⟩
    rw [hb]
    by_cases hmod : ∃ a ∈ l, a.severity = "moderate"
    · have hb2 : l.any (fun a => a.severity = "moderate") = true := by
        simp only [List.any_eq_true, decide_eq_true_eq]
        exact hmod
      rw [hb2, maxSevRank_eq_two hall hsev hmod]
      rfl
    · have hb2 : l.any (fun a => a.severity = "moderate") = false := by
        simp only [List.any_eq_false, decide_eq_true_eq]
        intro a ha hs
        exact hmod ⟨a, ha, hs⟩
      rw [hb2, maxSevRank_eq_one hall hsev hmod hne]
      rfl

/-- C7 (amended): when the baseline map is nonempty, the overall risk
is "normal" on an empty anomaly list and otherwise is the maximum
severity present, mapped severe→high / moderate→moderate / mild→mild;
in particular one severe entry forces "high". -/
theorem overallRisk_is_worst :
    ∀ (currentData : List (String × Option ℚ))
      (baselines : List (String × BaselineStats)),
      baselines ≠ [] →
      ((detectAnomalies currentData baselines).anomalies = [] →
        (detectAnomalies currentData baselines).overall_risk = "normal")
      ∧ ((detectAnomalies currentData baselines).anomalies ≠ [] →
        (detectAnomalies currentData baselines).overall_risk =
          riskOfRank (maxSevRank (detectAnomalies currentData baselines).anomalies))
      ∧ ((∃ a ∈ (detectAnomalies currentData baselines).anomalies,
            a.severity = "severe") →
        (detectAnomalies currentData baselines).overall_risk = "high") := by
  intro currentData baselines hne
  have hemp : baselines.isEmpty = false := by
    cases baselines with
    | nil => exact absurd rfl hne
    | cons a t => rfl
  have hrisk : (detectAnomalies currentData baselines).overall_risk =
      (if (detectAnomalies currentData baselines).anomalies.isEmpty then "normal"
       else if (detectAnomalies currentData baselines).anomalies.any
           (fun a => a.severity = "severe") then "high"
       else if (detectAnomalies currentData baselines).anomalies.any
           (fun a => a.severity = "moderate") then "moderate"
       else "mild") := by
    unfold detectAnomalies
    rw [hemp]
    rfl
  refine ⟨?_, ?_, ?_⟩
  · intro hnil
    rw [hrisk, hnil]
    rfl
  · intro hne2
    have hisEmpty : (detectAnomalies currentData baselines).anomalies.isEmpty = false := by
      cases h : (detectAnomalies currentData baselines).anomalies with
      | nil => exact absurd h hne2
      | cons a t => rfl
    rw [hrisk, hisEmpty]
    exact riskChain_eq_max _ hne2 fun a ha => severity_of_mem_anomalies ha
  · intro hex
    have hne2 : (detectAnomalies currentData baselines).anomalies ≠ [] := by
      obtain ⟨a, ha, _⟩ := hex
      exact List.ne_nil_of_mem ha
    have hisEmpty : (detectAnomalies currentData baselines).anomalies.isEmpty = false := by
      cases h : (detectAnomalies currentData baselines).anomalies with
      | nil => exact absurd h hne2
      | cons a t => rfl
    have hb : (detectAnomalies currentData baselines).anomalies.any
        (fun a => a.severity = "severe") = true := by
      simp only [List.any_eq_true, decide_eq_true_eq]
      exact hex
    rw [hrisk, hisEmpty, hb]
    rfl

/-- C7 counterexample to the claim as stated: with an empty baseline
map `detect_anomalies` returns an empty anomaly list whose
overall risk is the sentinel "unknown", not "normal". -/
theorem overallRisk_empty_counterexample :
    (detectAnomalies [] []).anomalies = []
    ∧ (detectAnomalies [] []).overall_risk = "unknown"
    ∧ ("unknown" : String) ≠ "normal" :=
  ⟨rfl, rfl, by decide⟩

/-- C7 witness: with the median-72/iqr-10 heart-rate baseline, no
current data gives overall risk "normal", and a single severe signal
(heart rate 200, deviation 11.6) gives overall risk "high". -/
theorem overallRisk_is_worst_witness :
    ([("heart_rate", hrBaseline)] : List (String × BaselineStats)) ≠ []
    ∧ (detectAnomalies ([] : List (String × Option ℚ))
        [("heart_rate", hrBaseline)]).anomalies = []
    ∧ (detectAnomalies ([] : List (String × Option ℚ))
        [("heart_rate", hrBaseline)]).overall_risk = "normal"
    ∧ (detectAnomalies [("heart_rate", some 200)]
        [("heart_rate", hrBaseline)]).overall_risk = "high" := by
  have hne : ([("heart_rate", hrBaseline)] : List (String × BaselineStats)) ≠ [] := by
    simp
  have hnil : (detectAnomalies ([] : List (String × Option ℚ))
      [("heart_rate", hrBaseline)]).anomalies = [] := rfl
  refine ⟨hne, hnil, (overallRisk_is_worst _ _ hne).1 hnil, ?_⟩
  have hzval : modifiedZ 200 72 10 = 1164672640/100000000 := by
    norm_num [modifiedZ]
  have hz4 : 4 ≤ |modifiedZ 200 72 10| := by
    rw [hzval, abs_of_pos] <;> norm_num
  have hz2 : 2 ≤ |modifiedZ 200 72 10| := le_trans (by norm_num) hz4
  have hsev : getSeverity (modifiedZ 200 72 10) = "severe" :=
    (getSeverity_eq_severe_iff _).2 hz4
  have hanom : (detectAnomalies [("heart_rate", some 200)]
      [("heart_rate", hrBaseline)]).anomalies =
      [{ signal := "heart_rate", current_value := 200, baseline_median := 72,
         z_score := pyRound (modifiedZ 200 72 10) 2, severity := "severe",
         direction := "high" }] := by
    simp [detectAnomalies, alistFind, hrBaseline, hz2, hsev,
      show (72 : ℚ) < 200 by norm_num]
  refine (overallRisk_is_worst _ _ hne).2.2
    ⟨{ signal := "heart_rate", current_value := 200, baseline_median := 72,
       z_score := pyRound (modifiedZ 200 72 10) 2, severity := "severe",
       direction := "high" }, ?_, rfl⟩
  rw [hanom]
  exact List.mem_singleton.mpr rfl

/-- C5: the status bands of `calculate_simple_care_score` and the
escalation levels of `_determine_level` agree on the exact boundaries:
score ≤ 30 is Stable / level 0 (and `check_escalation` creates no
record), 31–50 is Mild / level 1, 51–70 is Moderate / level 2, and
≥ 71 is High / level 3. -/
theorem statusLevel_boundaries :
    ∀ s : ℚ,
      (s ≤ 30 → statusOf s = "Stable" ∧ determineLevel s = 0 ∧
        (∀ (st : List EscalationRec) (u : ℕ) (now : ℚ) (newId : ℕ),
          checkEscalation st u s now newId = (none, st)))
      ∧ (31 ≤ s → s ≤ 50 → statusOf s = "Mild" ∧ determineLevel s = 1)
      ∧ (51 ≤ s → s ≤ 70 → statusOf s = "Moderate" ∧ determineLevel s = 2)
      ∧ (71 ≤ s → statusOf s = "High" ∧ determineLevel s = 3) := by
  intro s
  refine ⟨?_, ?_, ?_, ?_⟩
  · intro h
    have hlev : determineLevel s = 0 := by
      unfold determineLevel
      rw [if_neg (by linarith), if_neg (by linarith), if_neg (by linarith)]
    refine ⟨by unfold statusOf; rw [if_pos h], hlev, ?_⟩
    intro st u now newId
    simp [checkEscalation, hlev]
  · intro h1 h2
    constructor
    · unfold statusOf
      rw [if_neg (by linarith), if_pos (by linarith)]
    · unfold determineLevel
      rw [if_neg (by linarith), if_neg (by linarith), if_pos (by linarith)]
  · intro h1 h2
    constructor
    · unfold statusOf
      rw [if_neg (by linarith), if_neg (by linarith), if_pos (by linarith)]
    · unfold determineLevel
      rw [if_neg (by linarith), if_pos (by linarith)]
  · intro h1
    constructor
    · unfold statusOf
      rw [if_neg (by linarith), if_neg (by linarith), if_neg (by linarith)]
    · unfold determineLevel
      rw [if_pos (by linarith)]

/-- C5 witness: the six spec boundary scores 30, 31, 50, 51, 70, 71. -/
theorem statusLevel_boundaries_witness :
    statusOf 30 = "Stable" ∧ determineLevel 30 = 0
    ∧ checkEscalation [] 1 30 0 0 = (none, [])
    ∧ statusOf 31 = "Mild" ∧ determineLevel 31 = 1
    ∧ statusOf 50 = "Mild" ∧ determineLevel 50 = 1
    ∧ statusOf 51 = "Moderate" ∧ determineLevel 51 = 2
    ∧ statusOf 70 = "Moderate" ∧ determineLevel 70 = 2
    ∧ statusOf 71 = "High" ∧ determineLevel 71 = 3 := by
  have h30 := (statusLevel_boundaries 30).1 (by norm_num)
  have h31 := (statusLevel_boundaries 31).2.1 (by norm_num) (by norm_num)
  have h50 := (statusLevel_boundaries 50).2.1 (by norm_num) (by norm_num)
  have h51 := (statusLevel_boundaries 51).2.2.1 (by norm_num) (by norm_num)
  have h70 := (statusLevel_boundaries 70).2.2.1 (by norm_num) (by norm_num)
  have h71 := (statusLevel_boundaries 71).2.2.2 (by norm_num)
  exact ⟨h30.1, h30.2.1, h30.2.2 [] 1 0 0, h31.1, h31.2, h50.1, h50.2,
    h51.1, h51.2, h70.1, h70.2, h71.1, h71.2⟩

/-! ### Care-score bounds helpers -/

lemma roundHalfEven_bounds {q : ℚ} {lo hi : ℤ} (h1 : (lo : ℚ) ≤ q)
    (h2 : q ≤ (hi : ℚ)) : lo ≤ roundHalfEven q ∧ roundHalfEven q ≤ hi := by
  have hflo : lo ≤ ⌊q⌋ := Int.le_floor.mpr h1
  have hfq : (⌊q⌋ : ℚ) ≤ q := Int.floor_le q
  have hfhi : ⌊q⌋ ≤ hi := by exact_mod_cast le_trans hfq h2
  unfold roundHalfEven
  split_ifs with c1 c2 c3
  · exact ⟨hflo, hfhi⟩
  · exact ⟨hflo, hfhi⟩
  · have hq : q = (⌊q⌋ : ℚ) + 1/2 := by linarith
    have hlt : (⌊q⌋ : ℚ) < (hi : ℚ) := by linarith
    have hlt2 : ⌊q⌋ < hi := by exact_mod_cast hlt
    exact ⟨by omega, by omega⟩
  · have hgt : 1/2 < q - ⌊q⌋ := lt_of_le_of_ne (not_lt.mp c1) (Ne.symm c2)
    have hlt : (⌊q⌋ : ℚ) < (hi : ℚ) := by linarith
    have hlt2 : ⌊q⌋ < hi := by exact_mod_cast hlt
    exact ⟨by omega, by omega⟩

lemma pyRound1_mem {q : ℚ} (h0 : 0 ≤ q) (h1 : q ≤ 100) :
    0 ≤ pyRound q 1 ∧ pyRound q 1 ≤ 100 := by
  have hlo : ((0 : ℤ) : ℚ) ≤ q * 10 ^ 1 := by
    push_cast
    nlinarith
  have hhi : q * 10 ^ 1 ≤ ((1000 : ℤ) : ℚ) := by
    push_cast
    nlinarith
  obtain ⟨hl, hh⟩ := roundHalfEven_bounds hlo hhi
  unfold pyRound
  constructor
  · apply div_nonneg _ (by norm_num)
    exact_mod_cast hl
  · rw [div_le_iff₀ (by norm_num)]
    have : (roundHalfEven (q * 10 ^ 1) : ℚ) ≤ (1000 : ℚ) := by exact_mod_cast hh
    linarith

lemma clampedScore_mem (hd : HealthData) (u : UserBaselines) :
    0 ≤ clampedScore hd u ∧ clampedScore hd u ≤ 100 :=
  ⟨le_min (by norm_num) (le_max_left 0 _), min_le_left _ _⟩

lemma heartRatePart_len (hd : HealthData) (u : UserBaselines) :
    (heartRatePart hd u).2.length ≤ 1 := by
  simp only [heartRatePart]
  split_ifs <;> simp

lemma hrvPart_len (hd : HealthData) : (hrvPart hd).2.length ≤ 1 := by
  simp only [hrvPart]
  split_ifs <;> simp

lemma sleepPart_len (hd : HealthData) : (sleepPart hd).2.length ≤ 1 := by
  simp only [sleepPart]
  split_ifs <;> simp

lemma bpPart_len (hd : HealthData) : (bpPart hd).2.length ≤ 1 := by
  simp only [bpPart]
  split_ifs <;> simp

lemma sugarPart_len (hd : HealthData) : (sugarPart hd).2.length ≤ 1 := by
  simp only [sugarPart]
  split_ifs <;> simp

lemma activityPart_len (hd : HealthData) : (activityPart hd).2.length ≤ 1 := by
  unfold activityPart
  cases hd.activity_level
  · simp
  · dsimp only
    split_ifs <;> simp

lemma deviations_len (hd : HealthData) (u : UserBaselines) :
    (deviationsOf hd u).length ≤ 6 := by
  unfold deviationsOf
  have h1 := heartRatePart_len hd u
  have h2 := hrvPart_len hd
  have h3 := sleepPart_len hd
  have h4 := bpPart_len hd
  have h5 := sugarPart_len hd
  have h6 := activityPart_len hd
  simp only [List.length_append]
  omega

/-- C1 (amended): every persisted component of the `CareScore` record
is within its stated bound (severity 0–40, persistence 0–25,
cross-signal 0–20, manual 0–10) and the composite score is within
[0,100]; but the composite is the clamped deviation-based score, not
the sum of the component fields (see the counterexample). -/
theorem careScoreRecord_bounds :
    ∀ (hd : HealthData) (u : UserBaselines) (geminiOk : Bool),
      0 ≤ (mkCareScoreRecord hd u geminiOk).severity_score
      ∧ (mkCareScoreRecord hd u geminiOk).severity_score ≤ 40
      ∧ (mkCareScoreRecord hd u geminiOk).persistence_score = 0
      ∧ 0 ≤ (mkCareScoreRecord hd u geminiOk).cross_signal_score
      ∧ (mkCareScoreRecord hd u geminiOk).cross_signal_score ≤ 20
      ∧ (mkCareScoreRecord hd u geminiOk).manual_modifier = 0
      ∧ 0 ≤ (mkCareScoreRecord hd u geminiOk).care_score
      ∧ (mkCareScoreRecord hd u geminiOk).care_score ≤ 100 := by
  intro hd u geminiOk
  obtain ⟨hc0, hc100⟩ := clampedScore_mem hd u
  obtain ⟨hr0, hr100⟩ := pyRound1_mem hc0 hc100
  have hlen := deviations_len hd u
  simp only [mkCareScoreRecord, calculateSimpleCareScore]
  refine ⟨le_min (by norm_num) (by nlinarith), min_le_left _ _, trivial,
    by positivity, ?_, trivial, hr0, hr100⟩
  have : ((deviationsOf hd u).length : ℚ) ≤ 6 := by exact_mod_cast hlen
  nlinarith

/-- C1 counterexample: with only an HRV reading of 25 the simple score
is 10 (Low HRV contributes 10), but the persisted components are
severity 4, persistence 0, cross-signal 3, manual 0, whose clamped sum
is 7 ≠ 10: the composite does not equal the clamped component sum. -/
theorem careScoreRecord_sum_counterexample :
    (mkCareScoreRecord { emptyRow with hrv := some 25 } ⟨none, none⟩
        false).care_score = 10
    ∧ (mkCareScoreRecord { emptyRow with hrv := some 25 } ⟨none, none⟩
        false).severity_score = 4
    ∧ (mkCareScoreRecord { emptyRow with hrv := some 25 } ⟨none, none⟩
        false).persistence_score = 0
    ∧ (mkCareScoreRecord { emptyRow with hrv := some 25 } ⟨none, none⟩
        false).cross_signal_score = 3
    ∧ (mkCareScoreRecord { emptyRow with hrv := some 25 } ⟨none, none⟩
        false).manual_modifier = 0
    ∧ min 100 (max 0 ((4 : ℚ) + 0 + 3 + 0)) = 7
    ∧ (10 : ℚ) ≠ 7 := by
  have hraw : rawScore { emptyRow with hrv := some 25 } ⟨none, none⟩ = 10 := by
    norm_num [rawScore, heartRatePart, hrvPart, sleepPart, bpPart, sugarPart,
      activityPart, truthy, emptyRow]
  have hclamp : clampedScore { emptyRow with hrv := some 25 } ⟨none, none⟩ = 10 := by
    rw [clampedScore, hraw]
    norm_num
  have hdev : deviationsOf { emptyRow with hrv := some 25 } ⟨none, none⟩ =
      ["low hrv"] := by
    norm_num [deviationsOf, heartRatePart, hrvPart, sleepPart, bpPart, sugarPart,
      activityPart, truthy, emptyRow]
  have hround : pyRound 10 1 = 10 := by
    norm_num [pyRound, roundHalfEven, Int.floor_eq_iff]
  refine ⟨?_, ?_, ?_, ?_, ?_, by norm_num, by norm_num⟩
  · simp only [mkCareScoreRecord, calculateSimpleCareScore, hclamp, hround]
  · simp only [mkCareScoreRecord, calculateSimpleCareScore, hclamp, hround]
    norm_num
  · simp only [mkCareScoreRecord]
  · simp only [mkCareScoreRecord, calculateSimpleCareScore, hdev]
    norm_num
  · simp only [mkCareScoreRecord]

/-! ### Escalation dedup helpers -/

/-- No two escalations of the same user at the same level lie within a
rolling 24-hour window of each other. -/
def Separated24 (st : List EscalationRec) : Prop :=
  st.Pairwise (fun a b => a.user_id = b.user_id → a.level = b.level →
    24 < |a.timestamp - b.timestamp|)

lemma not_recent_of_false {st : List EscalationRec} {u lvl : ℕ} {now : ℚ}
    (h : hasRecentEscalation st u lvl now 24 = false) :
    ∀ e ∈ st, e.user_id = u → e.level = lvl → e.timestamp < now - 24 := by
  intro e he hu hl
  by_contra hcon
  push_neg at hcon
  have : hasRecentEscalation st u lvl now 24 = true := by
    unfold hasRecentEscalation
    simp only [List.any_eq_true]
    exact ⟨e, he, by simp [hu, hl, hcon]⟩
  rw [this] at h
  exact Bool.noConfusion h

lemma checkEscalation_preserves {st : List EscalationRec} {u : ℕ}
    {s now : ℚ} {newId : ℕ} (h : Separated24 st) :
    Separated24 (checkEscalation st u s now newId).2 := by
  unfold checkEscalation
  by_cases h0 : determineLevel s = 0
  · simpa [h0] using h
  · rw [if_neg h0]
    cases hrec : hasRecentEscalation st u (determineLevel s) now 24 with
    | true => simpa [hrec] using h
    | false =>
        simp only [hrec]
        refine List.pairwise_append.mpr ⟨h, List.pairwise_singleton _ _, ?_⟩
        intro a ha e' he' hu hl
        simp only [List.mem_singleton] at he'
        subst he'
        have hts : a.timestamp < now - 24 :=
          not_recent_of_false hrec a ha (by simpa using hu) (by simpa using hl)
        rw [abs_sub_comm, abs_of_pos (by linarith)]
        linarith

lemma runCalls_preserves {st : List EscalationRec}
    (calls : List (ℕ × ℚ × ℚ × ℕ)) (h : Separated24 st) :
    Separated24 (runCalls st calls) := by
  induction calls generalizing st with
  | nil => exact h
  | cons c rest ih => exact ih (checkEscalation_preserves h)

/-- C6: starting from a state with no recent escalation of the user at
the level of score `s`, a call at `t1` creates a record, a second call
within 24 hours at the same level creates nothing and leaves the table
unchanged, and a third call more than 24 hours after the first creates
a second record; moreover any sequence of `check_escalation` calls
starting from an empty table keeps every two same-(user, level)
escalations more than 24 hours apart. -/
theorem escalation_dedup :
    (∀ (st : List EscalationRec) (u : ℕ) (s t1 t2 t3 : ℚ) (id1 id2 id3 : ℕ),
      determineLevel s ≠ 0 →
      hasRecentEscalation st u (determineLevel s) t1 24 = false →
      t2 - 24 ≤ t1 → t1 ≤ t2 → t1 + 24 < t3 →
      (checkEscalation st u s t1 id1).1 =
          some ⟨id1, u, determineLevel s, t1, false, none⟩
      ∧ (checkEscalation st u s t1 id1).2 =
          st ++ [⟨id1, u, determineLevel s, t1, false, none⟩]
      ∧ (checkEscalation (st ++ [⟨id1, u, determineLevel s, t1, false, none⟩])
          u s t2 id2).1 = none
      ∧ (checkEscalation (st ++ [⟨id1, u, determineLevel s, t1, false, none⟩])
          u s t2 id2).2 =
          st ++ [⟨id1, u, determineLevel s, t1, false, none⟩]
      ∧ (checkEscalation (st ++ [⟨id1, u, determineLevel s, t1, false, none⟩])
          u s t3 id3).1 =
          some ⟨id3, u, determineLevel s, t3, false, none⟩)
    ∧ (∀ calls : List (ℕ × ℚ × ℚ × ℕ), Separated24 (runCalls [] calls)) := by
  constructor
  · intro st u s t1 t2 t3 id1 id2 id3 h0 hrec h21 h12 h13
    have hrec2 : hasRecentEscalation
        (st ++ [⟨id1, u, determineLevel s, t1, false, none⟩])
        u (determineLevel s) t2 24 = true := by
      unfold hasRecentEscalation
      simp only [List.any_eq_true]
      refine ⟨⟨id1, u, determineLevel s, t1, false, none⟩, by simp, by simp [h21]⟩
    have hrec3 : hasRecentEscalation
        (st ++ [⟨id1, u, determineLevel s, t1, false, none⟩])
        u (determineLevel s) t3 24 = false := by
      unfold hasRecentEscalation
      simp only [List.any_eq_false]
      intro e he
      simp only [Bool.and_eq_true, decide_eq_true_eq, not_and]
      rintro ⟨hu, hl⟩
      rcases List.mem_append.mp he with hmem | hmem
      · have := not_recent_of_false hrec e hmem hu hl
        exact not_le.mpr (by linarith)
      · simp only [List.mem_singleton] at hmem
        subst hmem
        exact not_le.mpr (by linarith)
    refine ⟨?_, ?_, ?_, ?_, ?_⟩
    · simp [checkEscalation, h0, hrec]
    · simp [checkEscalation, h0, hrec]
    · simp [checkEscalation, h0, hrec2]
    · simp [checkEscalation, h0, hrec2]
    · simp [checkEscalation, h0, hrec3]
  · intro calls
    exact runCalls_preserves calls List.Pairwise.nil

/-- C6 witness: user 1 at score 80 (level 3), calls at hours 0, 10 and
25 on an empty table. -/
theorem escalation_dedup_witness :
    determineLevel (80 : ℚ) ≠ 0
    ∧ hasRecentEscalation [] 1 (determineLevel (80 : ℚ)) 0 24 = false
    ∧ ((10 : ℚ) - 24 ≤ 0) ∧ ((0 : ℚ) ≤ 10) ∧ ((0 : ℚ) + 24 < 25)
    ∧ ((checkEscalation [] 1 80 0 0).1 =
          some ⟨0, 1, determineLevel (80 : ℚ), 0, false, none⟩
      ∧ (checkEscalation [] 1 80 0 0).2 =
          [] ++ [⟨0, 1, determineLevel (80 : ℚ), 0, false, none⟩]
      ∧ (checkEscalation ([] ++ [⟨0, 1, determineLevel (80 : ℚ), 0, false, none⟩])
          1 80 10 1).1 = none
      ∧ (checkEscalation ([] ++ [⟨0, 1, determineLevel (80 : ℚ), 0, false, none⟩])
          1 80 10 1).2 =
          [] ++ [⟨0, 1, determineLevel (80 : ℚ), 0, false, none⟩]
      ∧ (checkEscalation ([] ++ [⟨0, 1, determineLevel (80 : ℚ), 0, false, none⟩])
          1 80 25 2).1 =
          some ⟨2, 1, determineLevel (80 : ℚ), 25, false, none⟩) := by
  have h0 : determineLevel (80 : ℚ) ≠ 0 := by
    norm_num [determineLevel]
  have hrec : hasRecentEscalation [] 1 (determineLevel (80 : ℚ)) 0 24 = false := rfl
  exact ⟨h0, hrec, by norm_num, by norm_num, by norm_num,
    escalation_dedup.1 [] 1 80 0 10 25 0 1 2 h0 hrec (by norm_num) (by norm_num)
      (by norm_num)⟩

/-! ### Baseline membership helpers -/

lemma alistFind_isSome {α : Type} (l : List (String × α)) (s : String) :
    (alistFind l s).isSome ↔ ∃ p ∈ l, p.1 = s := by
  induction l with
  | nil => simp [alistFind]
  | cons p rest ih =>
      by_cases hk : p.1 = s
      · simp [alistFind, hk]
      · simp only [alistFind]
        rw [if_neg hk]
        simp only [ih, List.mem_cons]
        constructor
        · rintro ⟨q, hq, hqs⟩
          exact ⟨q, Or.inr hq, hqs⟩
        · rintro ⟨q, hq | hq, hqs⟩
          · exact absurd (hq ▸ hqs) hk
          · exact ⟨q, hq, hqs⟩

/-- C8: `learn_baseline` produces an entry for a signal iff that signal
has at least 5 non-null values among the readings in the window, and
with zero readings it returns the empty map rather than raising. -/
theorem learnBaseline_membership :
    (∀ (data : List HealthData) (s : String),
      s ∈ SIGNALS ++ MANUAL_SIGNALS →
      ((alistFind (learnBaseline data) s).isSome ↔
        5 ≤ (signalValues data s).length))
    ∧ learnBaseline [] = [] := by
  refine ⟨?_, rfl⟩
  intro data s hs
  cases data with
  | nil =>
      simp [learnBaseline, signalValues, alistFind]
  | cons x xs =>
      have hunfold : learnBaseline (x :: xs) =
          (SIGNALS ++ MANUAL_SIGNALS).filterMap (fun s =>
            if 5 ≤ (signalValues (x :: xs) s).length then
              some (s, baselineFor (signalValues (x :: xs) s))
            else none) := by
        unfold learnBaseline
        rfl
      rw [hunfold, alistFind_isSome]
      constructor
      · rintro ⟨p, hp, hps⟩
        rw [List.mem_filterMap] at hp
        obtain ⟨s', hs', hf⟩ := hp
        by_cases hlen : 5 ≤ (signalValues (x :: xs) s').length
        · rw [if_pos hlen] at hf
          obtain rfl := Option.some.inj hf
          rwa [← hps]
        · rw [if_neg hlen] at hf
          exact absurd hf (by simp)
      · intro hlen
        refine ⟨(s, baselineFor (signalValues (x :: xs) s)),
          List.mem_filterMap.mpr ⟨s, hs, ?_⟩, rfl⟩
        rw [if_pos hlen]

/-- Five identical readings carrying only a heart rate of 70. -/
def fiveRows : List HealthData :=
  List.replicate 5 { emptyRow with heart_rate := some 70 }

/-- C8 witness: with zero readings the heart-rate baseline is absent;
with five heart-rate readings it is present. -/
theorem learnBaseline_membership_witness :
    "heart_rate" ∈ SIGNALS ++ MANUAL_SIGNALS
    ∧ ((alistFind (learnBaseline []) "heart_rate").isSome ↔
        5 ≤ (signalValues ([] : List HealthData) "heart_rate").length)
    ∧ (alistFind (learnBaseline fiveRows) "heart_rate").isSome := by
  have hmem : "heart_rate" ∈ SIGNALS ++ MANUAL_SIGNALS := by
    simp [SIGNALS, MANUAL_SIGNALS]
  have hlen : (signalValues fiveRows "heart_rate").length = 5 := by
    simp [fiveRows, signalValues, getSignal, emptyRow, List.replicate]
  refine ⟨hmem, learnBaseline_membership.1 [] "heart_rate" hmem, ?_⟩
  exact (learnBaseline_membership.1 fiveRows "heart_rate" hmem).mpr (by rw [hlen])

/-! ### Acknowledge helpers -/

lemma ack_fst_false_iff (st : List EscalationRec) (eid : ℕ) (a : String) :
    (acknowledgeEscalation st eid a).1 = false ↔ ∀ r ∈ st, r.id ≠ eid := by
  induction st with
  | nil => simp [acknowledgeEscalation]
  | cons x rest ih =>
      by_cases hx : x.id = eid
      · simp [acknowledgeEscalation, hx]
      · simp [acknowledgeEscalation, hx, ih]

lemma ack_find_spec (st : List EscalationRec) (eid : ℕ) (a : String) :
    ∀ r, findEsc (acknowledgeEscalation st eid a).2 eid = some r →
      r.acknowledged = true ∧ r.action_taken = some a := by
  induction st with
  | nil =>
      intro r h
      simp [acknowledgeEscalation, findEsc] at h
  | cons x rest ih =>
      intro r h
      by_cases hx : x.id = eid
      · rw [show acknowledgeEscalation (x :: rest) eid a =
            (true, { x with acknowledged := true, action_taken := some a } :: rest)
            from by simp [acknowledgeEscalation, hx]] at h
        unfold findEsc at h
        rw [List.find?_cons_of_pos _ (by simp [hx])] at h
        obtain rfl := Option.some.inj h
        exact ⟨rfl, rfl⟩
      · rw [show acknowledgeEscalation (x :: rest) eid a =
            ((acknowledgeEscalation rest eid a).1,
              x :: (acknowledgeEscalation rest eid a).2)
            from by simp [acknowledgeEscalation, hx]] at h
        unfold findEsc at h
        rw [List.find?_cons_of_neg _ (by simp [hx])] at h
        exact ih r h

lemma ack_fst_any (st : List EscalationRec) (eid : ℕ) (a : String) :
    (acknowledgeEscalation st eid a).1 = st.any (fun r => r.id = eid) := by
  induction st with
  | nil => rfl
  | cons x rest ih =>
      by_cases hx : x.id = eid
      · simp [acknowledgeEscalation, hx]
      · simp [acknowledgeEscalation, hx, ih]

lemma ack_snd_any (st : List EscalationRec) (eid : ℕ) (a : String) (eid' : ℕ) :
    (acknowledgeEscalation st eid a).2.any (fun r => r.id = eid') =
      st.any (fun r => r.id = eid') := by
  induction st with
  | nil => rfl
  | cons x rest ih =>
      by_cases hx : x.id = eid
      · simp [acknowledgeEscalation, hx]
      · simp [acknowledgeEscalation, hx, ih]

/-- C9: `acknowledge_escalation` fails exactly when no escalation with
the given id exists; on success the row found under that id afterwards
is acknowledged with the given action; and re-acknowledging succeeds
again, overwriting `action_taken` with the new action. -/
theorem acknowledge_spec :
    ∀ (st : List EscalationRec) (eid : ℕ) (a a' : String),
      ((acknowledgeEscalation st eid a).1 = false ↔ ∀ r ∈ st, r.id ≠ eid)
      ∧ (∀ r, findEsc (acknowledgeEscalation st eid a).2 eid = some r →
          r.acknowledged = true ∧ r.action_taken = some a)
      ∧ ((acknowledgeEscalation st eid a).1 = true →
          (acknowledgeEscalation (acknowledgeEscalation st eid a).2 eid a').1 = true
          ∧ ∀ r, findEsc (acknowledgeEscalation
              (acknowledgeEscalation st eid a).2 eid a').2 eid = some r →
              r.acknowledged = true ∧ r.action_taken = some a') := by
  intro st eid a a'
  refine ⟨ack_fst_false_iff st eid a, ack_find_spec st eid a, ?_⟩
  intro hsucc
  refine ⟨?_, ack_find_spec _ eid a'⟩
  rw [ack_fst_any, ack_snd_any, ← ack_fst_any st eid a]
  exact hsucc

/-- A concrete unacknowledged escalation row. -/
def escRow : EscalationRec :=
  { id := 7, user_id := 1, level := 2, timestamp := 0,
    acknowledged := false, action_taken := none }

/-- C9 witness: acknowledging id 7 as "scheduled" then re-acknowledging
as "contacted" on a one-row table. -/
theorem acknowledge_spec_witness :
    ((acknowledgeEscalation [escRow] 7 "scheduled").1 = false ↔
      ∀ r ∈ [escRow], r.id ≠ 7)
    ∧ (acknowledgeEscalation [escRow] 7 "scheduled").1 = true
    ∧ (∀ r, findEsc (acknowledgeEscalation
        (acknowledgeEscalation [escRow] 7 "scheduled").2 7 "contacted").2 7 =
          some r →
        r.acknowledged = true ∧ r.action_taken = some "contacted") := by
  have h := acknowledge_spec [escRow] 7 "scheduled" "contacted"
  have hsucc : (acknowledgeEscalation [escRow] 7 "scheduled").1 = true := by
    rw [ack_fst_any]
    simp [escRow]
  exact ⟨h.1, hsucc, (h.2.2 hsucc).2⟩

/-! ### Drift-signal scope -/

lemma mem_driftSignals {recent monthData : List HealthData} {d : DriftEntry}
    (h : d ∈ (analyzeDrift recent monthData).drift_signals) :
    d.signal ∈ SIGNALS := by
  unfold analyzeDrift at h
  split_ifs at h with hlen
  · simp at h
  · simp only [List.mem_filterMap] at h
    obtain ⟨sig, hsig, hf⟩ := h
    cases hfind : alistFind (learnBaseline monthData) sig with
    | none => simp [hfind] at hf
    | some b =>
        simp only [hfind] at hf
        by_cases h3 : (signalValues recent sig).length < 3
        · rw [if_pos h3] at hf
          exact absurd hf (by simp)
        · rw [if_neg h3] at hf
          by_cases hz : 3/2 ≤ |modifiedZ (listMean (lastN (signalValues recent sig) 3))
              b.median b.iqr|
          · rw [if_pos hz] at hf
            obtain rfl := Option.some.inj hf
            exact hsig
          · rw [if_neg hz] at hf
            exact absurd hf (by simp)

/-- C10: `analyze_drift` iterates only over `SIGNALS`, so every drift
entry is for an automatically collected signal and the manually
entered signals never appear in `drift_signals`. -/
theorem analyzeDrift_excludes_manual :
    ∀ (recent monthData : List HealthData) (s : String),
      s ∈ MANUAL_SIGNALS →
      (∀ d ∈ (analyzeDrift recent monthData).drift_signals,
        d.signal ∈ SIGNALS ∧ d.signal ∉ MANUAL_SIGNALS)
      ∧ s ∉ (analyzeDrift recent monthData).drift_signals.map DriftEntry.signal := by
  intro recent monthData s hs
  have hdisj : ∀ t : String, t ∈ SIGNALS → t ∉ MANUAL_SIGNALS := by
    intro t ht
    simp only [SIGNALS, List.mem_cons, List.mem_singleton] at ht
    rcases ht with rfl | rfl | rfl | rfl | rfl | ht
    · decide
    · decide
    · decide
    · decide
    · decide
    · simp only [List.not_mem_nil] at ht
      cases ht with
      | inl h => subst h; decide
      | inr h => exact absurd h (by simp)
  constructor
  · intro d hd
    have := mem_driftSignals hd
    exact ⟨this, hdisj _ this⟩
  · intro hmap
    obtain ⟨d, hd, hds⟩ := List.mem_map.mp hmap
    have := hdisj _ (mem_driftSignals hd)
    rw [hds] at this
    exact this hs

/-- C10 witness: with no readings at all, the drift report is empty and
in particular contains no blood-pressure entry. -/
theorem analyzeDrift_excludes_manual_witness :
    "bp_systolic" ∈ MANUAL_SIGNALS
    ∧ "bp_systolic" ∉
        ((analyzeDrift [] []).drift_signals.map DriftEntry.signal) := by
  have hs : "bp_systolic" ∈ MANUAL_SIGNALS := by simp [MANUAL_SIGNALS]
  exact ⟨hs, (analyzeDrift_excludes_manual [] [] "bp_systolic" hs).2⟩

end PulseAI
